import Mathlib

/-!
Shallow embedding of `src/libdatabase.py` (local mirror of a remote IP
database).  The sqlite table `servers` is modelled as a `List ServerRow`;
sqlite stores every column dynamically, so all columns are modelled as
`String` (Python booleans are adapted by `sqlite3` to the integers `1`/`0`,
modelled by `boolVal`).  Fallible paths (uncaught sqlite errors, missing
table indices in the scraped markup) are modelled with explicit result
constructors / `Option`.
-/

/-- One row of the sqlite `servers` table created by `connect_to_db`
(`CREATE TABLE ... ipAddress TEXT PRIMARY KEY, name, type, page, admin,
minimum_protect, owned, running, files, cpu, memory, bandwidth, lastlog,
lastupdated`). -/
structure ServerRow where
  ipAddress : String
  name : String
  type : String
  page : String
  admin : String
  minimum_protect : String
  owned : String
  running : String
  files : String
  cpu : String
  memory : String
  bandwidth : String
  lastlog : String
  lastupdated : String
deriving Repr, DecidableEq

/-- The whitelist constant `VALID_COLUMN_NAMES` of `libdatabase.py`. -/
def VALID_COLUMN_NAMES : List String :=
  ["ipAddress", "name", "type", "page", "admin", "minimum_protect", "owned",
   "running", "files", "cpu", "memory", "bandwidth", "lastlog", "lastupdated"]

/-- `sqlite3` adapts the Python booleans computed by the scraper to the
integers `1`/`0` before they are stored. -/
def boolVal (b : Bool) : String := if b then "1" else "0"

/-- A fresh database: `connect_to_db` creates the (empty) `servers` table
when it does not exist yet. -/
def connect_to_db : List ServerRow := []

/-- Reading one whitelisted column of a row (the dynamically built
`SELECT col1,col2,... FROM servers` projection). -/
def getColumn (r : ServerRow) (col : String) : String :=
  if col = "ipAddress" then r.ipAddress
  else if col = "name" then r.name
  else if col = "type" then r.type
  else if col = "page" then r.page
  else if col = "admin" then r.admin
  else if col = "minimum_protect" then r.minimum_protect
  else if col = "owned" then r.owned
  else if col = "running" then r.running
  else if col = "files" then r.files
  else if col = "cpu" then r.cpu
  else if col = "memory" then r.memory
  else if col = "bandwidth" then r.bandwidth
  else if col = "lastlog" then r.lastlog
  else r.lastupdated

/-- Writing one whitelisted column of a row (one `col = 'value'` assignment
of the dynamically built `UPDATE servers SET ...` statement). -/
def setColumn (r : ServerRow) (col : String) (v : String) : ServerRow :=
  if col = "ipAddress" then { r with ipAddress := v }
  else if col = "name" then { r with name := v }
  else if col = "type" then { r with type := v }
  else if col = "page" then { r with page := v }
  else if col = "admin" then { r with admin := v }
  else if col = "minimum_protect" then { r with minimum_protect := v }
  else if col = "owned" then { r with owned := v }
  else if col = "running" then { r with running := v }
  else if col = "files" then { r with files := v }
  else if col = "cpu" then { r with cpu := v }
  else if col = "memory" then { r with memory := v }
  else if col = "bandwidth" then { r with bandwidth := v }
  else if col = "lastlog" then { r with lastlog := v }
  else { r with lastupdated := v }

/-- `str(value).replace("'", "")` in `set_IP_attributes`: every single-quote
character (code point 39) is removed from the value before it is embedded in
the SQL text. -/
def stripQuotes (s : String) : String :=
  String.mk (s.data.filter (fun c => !(c = Char.ofNat 39)))

/-- The distinct failure messages printed by the gateway functions
(each of them is followed by `return -1`). -/
inductive DbError where
  /-- "Invalid column name" -/
  | invalidColumn
  /-- "Invalid IP address" -/
  | invalidIP
  /-- "Attributes and values must be same length" -/
  | arityMismatch
deriving Repr, DecidableEq

/-- Outcome of `get_IP_attributes`: a tuple of column values, a printed
error followed by `-1`, or an uncaught `sqlite3.OperationalError` (raised
when the attribute list is empty, because the built SQL text
`SELECT  FROM servers ...` is malformed). -/
inductive GetResult where
  | ok (vals : List String)
  | err (e : DbError)
  | raised
deriving Repr, DecidableEq

/-- Outcome of `set_IP_attributes`: `0`, a printed error followed by `-1`,
or an uncaught `sqlite3.OperationalError` (raised when the attribute list is
empty, because the built SQL text `UPDATE servers SET  WHERE ...` is
malformed). -/
inductive SetResult where
  | ok
  | err (e : DbError)
  | raised
deriving Repr, DecidableEq

/-- `get_IP_attributes(IP, attributes)`.  The second component records
whether a query against the `servers` rows was submitted (the whitelist
loop returns before `cursor.execute` runs whenever some attribute is not
whitelisted). -/
def get_IP_attributes (db : List ServerRow) (IP : String)
    (attributes : List String) : GetResult × Bool :=
  if ∃ a ∈ attributes, a ∉ VALID_COLUMN_NAMES then
    (GetResult.err DbError.invalidColumn, false)
  else if attributes = [] then
    (GetResult.raised, true)
  else
    match db.filter (fun r => decide (r.ipAddress = IP)) with
    | [] => (GetResult.err DbError.invalidIP, true)
    | r :: _ => (GetResult.ok (attributes.map (getColumn r)), true)

/-- `set_IP_attributes(IP, attributes, values)`.  Checks arity first, then
the whitelist, then executes
`UPDATE servers SET a1 = 'v1', ... WHERE ipAddress = ?` (values with quotes
stripped); an update whose `WHERE` clause matches no row still returns `0`.
The last component records whether the `UPDATE` was submitted. -/
def set_IP_attributes (db : List ServerRow) (IP : String)
    (attributes : List String) (values : List String) :
    SetResult × List ServerRow × Bool :=
  if ¬ (attributes.length = values.length) then
    (SetResult.err DbError.arityMismatch, db, false)
  else if ∃ a ∈ attributes, a ∉ VALID_COLUMN_NAMES then
    (SetResult.err DbError.invalidColumn, db, false)
  else if attributes = [] then
    (SetResult.raised, db, true)
  else
    (SetResult.ok,
     db.map (fun r =>
       if r.ipAddress = IP then
         (attributes.zip values).foldl
           (fun acc av => setColumn acc av.1 (stripQuotes av.2)) r
       else r),
     true)

/-- `get_IP_list()`: `SELECT ipAddress FROM servers`, collected into a
list. -/
def get_IP_list (db : List ServerRow) : List String :=
  db.map (fun r => r.ipAddress)

/-- The five per-record fields computed by the scraping loop of
`IPDB_to_localDB` before the store is touched: `ipAddress`, `name`,
`admin`, `owned` come from the table row, `type` from the category loop
and `page` from `str(counter)`. -/
structure ExtractedRecord where
  ipAddress : String
  name : String
  type : String
  page : String
  admin : Bool
  owned : Bool
deriving Repr, DecidableEq

/-- One SQL statement submitted by the sync loop against the `servers`
rows, together with the ipAddress it targets. -/
inductive DbOp where
  | selectOp (ip : String)
  | updateOp (ip : String)
  | insertOp (ip : String)
deriving Repr, DecidableEq

/-- The ipAddress an operation targets. -/
def DbOp.target : DbOp → String
  | selectOp ip => ip
  | updateOp ip => ip
  | insertOp ip => ip

/-- `SELECT name FROM servers WHERE ipAddress = ?` returned at least one
row. -/
def keyPresent (ip : String) (db : List ServerRow) : Prop :=
  ∃ r ∈ db, r.ipAddress = ip

instance decKeyPresent (ip : String) (db : List ServerRow) :
    Decidable (keyPresent ip db) :=
  List.decidableBEx _ db

/-- The `UPDATE servers SET name = ?, type = ?, page = ?, admin = ?,
owned = ? WHERE ipAddress = ?` statement applied to one matching row. -/
def syncUpdate (rec : ExtractedRecord) (r : ServerRow) : ServerRow :=
  { r with name := rec.name, type := rec.type, page := rec.page,
           admin := boolVal rec.admin, owned := boolVal rec.owned }

/-- The effect of the `UPDATE` on one arbitrary row (rows whose key does
not match are untouched). -/
def updOne (rec : ExtractedRecord) (r : ServerRow) : ServerRow :=
  if r.ipAddress = rec.ipAddress then syncUpdate rec r else r

/-- `INSERT INTO servers VALUES (?, ?, ?, ?, ?, '', ?, '', '', '', '', '',
'', 'N/A')`. -/
def insertRow (rec : ExtractedRecord) : ServerRow :=
  { ipAddress := rec.ipAddress, name := rec.name, type := rec.type,
    page := rec.page, admin := boolVal rec.admin, minimum_protect := "",
    owned := boolVal rec.owned, running := "", files := "", cpu := "",
    memory := "", bandwidth := "", lastlog := "", lastupdated := "N/A" }

/-- The store effect of one record once it reaches the store path:
update in place when the key already exists, append a fresh row
otherwise. -/
def upsert (rec : ExtractedRecord) (db : List ServerRow) : List ServerRow :=
  if keyPresent rec.ipAddress db then db.map (updOne rec)
  else db ++ [insertRow rec]

/-- The body of the record loop of `IPDB_to_localDB` for one record:
skip when a filter is set and does not match (`IP != "none"` and
`ipAddress != IP`), otherwise `SELECT` then `UPDATE` or `INSERT`.
Also returns the SQL statements submitted for this record. -/
def processRecord (IP : String) (rec : ExtractedRecord)
    (db : List ServerRow) : List ServerRow × List DbOp :=
  if ¬ (rec.ipAddress = IP) ∧ ¬ (IP = "none") then
    (db, [])
  else if keyPresent rec.ipAddress db then
    (db.map (updOne rec), [DbOp.selectOp rec.ipAddress, DbOp.updateOp rec.ipAddress])
  else
    (db ++ [insertRow rec], [DbOp.selectOp rec.ipAddress, DbOp.insertOp rec.ipAddress])

/-- Store state after the record loop processed a list of records. -/
def syncDb (IP : String) : List ExtractedRecord → List ServerRow → List ServerRow
  | [], db => db
  | rec :: rest, db => syncDb IP rest (processRecord IP rec db).1

/-- SQL statements submitted while the record loop processed a list of
records. -/
def syncOps (IP : String) : List ExtractedRecord → List ServerRow → List DbOp
  | [], _ => []
  | rec :: rest, db =>
    (processRecord IP rec db).2 ++ syncOps IP rest (processRecord IP rec db).1

/-- The unfiltered record loop: every record is upserted. -/
def upsertAll : List ExtractedRecord → List ServerRow → List ServerRow
  | [], db => db
  | rec :: rest, db => upsertAll rest (upsert rec db)

/-- A scraped `<table>` element: its rows (`find_all("tr")`) and its nested
tables (`find_all("table")`).  The row type is a parameter: the per-row
field parsing (lines 101-104 of the source) is kept abstract, every claim
below quantifies over it. -/
inductive HtmlTable (α : Type) : Type where
  | mk : List α → List (HtmlTable α) → HtmlTable α

/-- `find_all("tr")` on a table. -/
def HtmlTable.trs : HtmlTable α → List α
  | .mk t _ => t

/-- `find_all("table")` on a table. -/
def HtmlTable.nestedTables : HtmlTable α → List (HtmlTable α)
  | .mk _ n => n

/-- A fetched page: its searchable text (`page.text`) and its top-level
`find_all("table")` result. -/
structure PageData (α : Type) where
  text : String
  tables : List (HtmlTable α)

/-- Whether `needle` occurs contiguously in `hay` (Python's `in` on
`list`s of characters). -/
def containsSubList (needle : List Char) : List Char → Bool
  | [] => needle.isEmpty
  | c :: rest => needle.isPrefixOf (c :: rest) || containsSubList needle rest

/-- Python's case-sensitive `needle in hay` on strings. -/
def containsSubstring (hay needle : String) : Bool :=
  containsSubList needle.data hay.data

/-- Python `l[::2]`: the elements at positions 0, 2, 4, ... -/
def everySecond : List α → List α
  | [] => []
  | [a] => [a]
  | a :: _ :: rest => a :: everySecond rest

/-- Python `l[::2][1:][:-1]` applied to `find_all("tr")`: take every second
row, then drop the first and the last of what remains. -/
def selectRows (trs : List α) : List α :=
  ((everySecond trs).drop 1).dropLast

/-- Table selection of `IPDB_to_localDB`: if the literal
`"Remote host web service"` occurs in the page text, take top-level table
16, otherwise take nested table 3 of top-level table 9.  A missing index is
an uncaught `IndexError` (`none`). -/
def locateTargetTable (page : PageData α) : Option (HtmlTable α) :=
  if containsSubstring page.text "Remote host web service" then
    page.tables.get? 16
  else
    (page.tables.get? 9).bind (fun t => t.nestedTables.get? 3)

/-- The query string `"index.php?action=ip_db&a2=" + ext + "&_o=" +
str(counter*20)` requested for one page. -/
def categoryQuery (ext : String) (counter : Nat) : String :=
  "index.php?action=ip_db&a2=" ++ ext ++ "&_o=" ++ toString (counter * 20)

/-- The four values parsed out of one candidate row (lines 101-104 of the
source); the parsing itself is kept abstract. -/
structure RawRow where
  ipAddress : String
  name : String
  admin : Bool
  owned : Bool
deriving Repr, DecidableEq

/-- Tagging a parsed row with the category label and the page counter. -/
def mkRecord (raw : RawRow) (sType : String) (counter : Nat) : ExtractedRecord :=
  { ipAddress := raw.ipAddress, name := raw.name, type := sType,
    page := toString counter, admin := raw.admin, owned := raw.owned }

/-- The `if ext == "pub" ... elif ext == "priv" ... else ...` chain. -/
def server_type (ext : String) : String :=
  if ext = "pub" then "Public"
  else if ext = "priv" then "Private"
  else "Secret"

/-- The `while moreIPs` pagination loop of `IPDB_to_localDB` for one
category, driven by structural recursion on `fuel` (`none` = fuel
exhausted, a model artifact).  On success: the store, the list of queries
fetched, and `true`; an unlocatable table is the uncaught per-page
`IndexError` (`false`), which keeps the rows committed so far. -/
def categoryLoopAux (fetch : String → PageData α) (parse : α → RawRow)
    (IP ext sType : String) :
    Nat → Nat → List ServerRow → List String →
    Option (List ServerRow × List String × Bool)
  | 0, _, _, _ => none
  | fuel + 1, counter, db, qs =>
    let q := categoryQuery ext counter
    let page := fetch q
    match locateTargetTable page with
    | none => some (db, qs ++ [q], false)
    | some t =>
      let trs := selectRows t.trs
      let recs := trs.map (fun tr => mkRecord (parse tr) sType counter)
      let db2 := syncDb IP recs db
      if trs.isEmpty then some (db2, qs ++ [q], true)
      else categoryLoopAux fetch parse IP ext sType fuel (counter + 1) db2 (qs ++ [q])

/-- The `for ext in ['pub', 'priv', 'sec']` loop: categories run in order,
each with a fresh counter; a per-page error aborts the whole run but keeps
the store state reached. -/
def extLoop (fetch : String → PageData α) (parse : α → RawRow)
    (IP : String) (fuel : Nat) :
    List String → List ServerRow → Option (List ServerRow × Bool)
  | [], db => some (db, true)
  | ext :: rest, db =>
    match categoryLoopAux fetch parse IP ext (server_type ext) fuel 0 db [] with
    | none => none
    | some (db2, _, false) => some (db2, false)
    | some (db2, _, true) => extLoop fetch parse IP fuel rest db2

/-- `IPDB_to_localDB(IP)`: full sync over the three categories.  `fetch`
models `get_page` (external collaborator, a pure function of the query
string), `parse` the per-row field extraction. -/
def IPDB_to_localDB (fetch : String → PageData α) (parse : α → RawRow)
    (IP : String) (fuel : Nat) (db : List ServerRow) :
    Option (List ServerRow × Bool) :=
  extLoop fetch parse IP fuel ["pub", "priv", "sec"] db

/-- Store-independent replay of the pagination loop for one category:
the records extracted and the queries fetched. -/
def collectLoopAux (fetch : String → PageData α) (parse : α → RawRow)
    (ext sType : String) :
    Nat → Nat → Option (List ExtractedRecord × List String × Bool)
  | 0, _ => none
  | fuel + 1, counter =>
    let q := categoryQuery ext counter
    let page := fetch q
    match locateTargetTable page with
    | none => some ([], [q], false)
    | some t =>
      let trs := selectRows t.trs
      let recs := trs.map (fun tr => mkRecord (parse tr) sType counter)
      if trs.isEmpty then some (recs, [q], true)
      else
        match collectLoopAux fetch parse ext sType fuel (counter + 1) with
        | none => none
        | some (rs, qs, ok) => some (recs ++ rs, q :: qs, ok)

/-- Store-independent replay of the category loop. -/
def collectExtLoop (fetch : String → PageData α) (parse : α → RawRow)
    (fuel : Nat) : List String → Option (List ExtractedRecord × Bool)
  | [] => some ([], true)
  | ext :: rest =>
    match collectLoopAux fetch parse ext (server_type ext) fuel 0 with
    | none => none
    | some (recs, _, false) => some (recs, false)
    | some (recs, _, true) =>
      match collectExtLoop fetch parse fuel rest with
      | none => none
      | some (rs, ok) => some (recs ++ rs, ok)

/-- One invocation of the sync engine. -/
structure SyncCall (α : Type) where
  fetch : String → PageData α
  parse : α → RawRow
  IP : String
  fuel : Nat

/-- A sequence of sync invocations against the same store; a crashed run
keeps its partially advanced store but ends the sequence. -/
def runSyncs : List (SyncCall α) → List ServerRow → Option (List ServerRow × Bool)
  | [], db => some (db, true)
  | c :: rest, db =>
    match IPDB_to_localDB c.fetch c.parse c.IP c.fuel db with
    | none => none
    | some (db2, false) => some (db2, false)
    | some (db2, true) => runSyncs rest db2

/-- The `ipAddress` column of the store. -/
def dbKeys (db : List ServerRow) : List String :=
  db.map (fun r => r.ipAddress)

/-- The elements of a list whose zero-based position, counted from `i`,
has remainder `p` modulo 2. -/
def idxFilter (p : Nat) : Nat → List α → List α
  | _, [] => []
  | i, a :: l => if i % 2 = p then a :: idxFilter p (i + 1) l else idxFilter p (i + 1) l

/-- Modelled from the spec: "candidate rows are every second row
(odd-indexed)" read with the spec's zero-based index convention — the
elements whose zero-based position is odd (positions 1, 3, 5, ...). -/
def oddIndexed (l : List α) : List α := idxFilter 1 0 l

/-- The elements whose zero-based position is even (positions 0, 2, 4,
...), i.e. the first, third, fifth, ... rows. -/
def evenIndexed (l : List α) : List α := idxFilter 0 0 l

/-! ### Basic facts about the sync store operations -/

theorem syncUpdate_ipAddress (rec : ExtractedRecord) (r : ServerRow) :
    (syncUpdate rec r).ipAddress = r.ipAddress := rfl

theorem syncUpdate_syncUpdate (a b : ExtractedRecord) (r : ServerRow) :
    syncUpdate a (syncUpdate b r) = syncUpdate a r := rfl

theorem insertRow_ipAddress (rec : ExtractedRecord) :
    (insertRow rec).ipAddress = rec.ipAddress := rfl

theorem syncUpdate_insertRow (a b : ExtractedRecord)
    (h : b.ipAddress = a.ipAddress) :
    syncUpdate a (insertRow b) = insertRow a := by
  simp [syncUpdate, insertRow, h]

theorem updOne_ipAddress (rec : ExtractedRecord) (r : ServerRow) :
    (updOne rec r).ipAddress = r.ipAddress := by
  unfold updOne
  split <;> simp [syncUpdate_ipAddress]

theorem processRecord_none (rec : ExtractedRecord) (db : List ServerRow) :
    (processRecord "none" rec db).1 = upsert rec db := by
  unfold processRecord upsert
  simp only [not_true, and_false, if_false]
  split <;> rfl

theorem syncDb_none (recs : List ExtractedRecord) (db : List ServerRow) :
    syncDb "none" recs db = upsertAll recs db := by
  induction recs generalizing db with
  | nil => rfl
  | cons rec rest ih =>
    simp only [syncDb, upsertAll, processRecord_none, ih]

theorem syncDb_append (IP : String) (a b : List ExtractedRecord)
    (db : List ServerRow) :
    syncDb IP (a ++ b) db = syncDb IP b (syncDb IP a db) := by
  induction a generalizing db with
  | nil => rfl
  | cons rec rest ih =>
    simp only [List.cons_append, syncDb]
    exact ih _

/-! ### Keys and key presence -/

theorem keyPresent_map_updOne (k : String) (rec : ExtractedRecord)
    (db : List ServerRow) :
    keyPresent k (db.map (updOne rec)) ↔ keyPresent k db := by
  unfold keyPresent
  constructor
  · rintro ⟨r, hr, hk⟩
    rcases List.mem_map.mp hr with ⟨r0, hr0, rfl⟩
    exact ⟨r0, hr0, by simpa [updOne_ipAddress] using hk⟩
  · rintro ⟨r, hr, hk⟩
    exact ⟨updOne rec r, List.mem_map.mpr ⟨r, hr, rfl⟩, by simpa [updOne_ipAddress] using hk⟩

theorem keyPresent_upsert_mono (k : String) (rec : ExtractedRecord)
    (db : List ServerRow) (h : keyPresent k db) :
    keyPresent k (upsert rec db) := by
  unfold upsert
  split
  · exact (keyPresent_map_updOne k rec db).mpr h
  · rcases h with ⟨r, hr, hk⟩
    exact ⟨r, List.mem_append_left _ hr, hk⟩

theorem keyPresent_upsert_self (rec : ExtractedRecord) (db : List ServerRow) :
    keyPresent rec.ipAddress (upsert rec db) := by
  unfold upsert
  split
  · next h =>
    rcases h with ⟨r, hr, hk⟩
    exact ⟨updOne rec r, List.mem_map.mpr ⟨r, hr, rfl⟩, by simpa [updOne_ipAddress] using hk⟩
  · exact ⟨insertRow rec, List.mem_append_right _ (List.mem_singleton.mpr rfl),
      insertRow_ipAddress rec⟩

theorem keyPresent_upsertAll_mono (k : String) (recs : List ExtractedRecord)
    (db : List ServerRow) (h : keyPresent k db) :
    keyPresent k (upsertAll recs db) := by
  induction recs generalizing db with
  | nil => exact h
  | cons rec rest ih => exact ih _ (keyPresent_upsert_mono k rec db h)

theorem keyPresent_upsertAll_of_mem (recs : List ExtractedRecord)
    (db : List ServerRow) (rec : ExtractedRecord) (h : rec ∈ recs) :
    keyPresent rec.ipAddress (upsertAll recs db) := by
  induction recs generalizing db with
  | nil => cases h
  | cons rec0 rest ih =>
    rcases List.mem_cons.mp h with h0 | hmem
    · rw [h0]
      exact keyPresent_upsertAll_mono _ rest _ (keyPresent_upsert_self _ db)
    · exact ih _ hmem

/-! ### The record loop as a per-row function -/

/-- Sequential application of all matching updates to one row. -/
def applyRecs (recs : List ExtractedRecord) (r : ServerRow) : ServerRow :=
  recs.foldl (fun acc rec => updOne rec acc) r

/-- The last record of the list whose identifier is `k`. -/
def lastMatch (recs : List ExtractedRecord) (k : String) : Option ExtractedRecord :=
  match recs with
  | [] => none
  | rec :: rest =>
    match lastMatch rest k with
    | some x => some x
    | none => if rec.ipAddress = k then some rec else none

theorem lastMatch_eq_none_iff (recs : List ExtractedRecord) (k : String) :
    lastMatch recs k = none ↔ ∀ rec ∈ recs, ¬ rec.ipAddress = k := by
  induction recs with
  | nil => simp [lastMatch]
  | cons rec rest ih =>
    unfold lastMatch
    constructor
    · intro h
      cases hm : lastMatch rest k with
      | some x => rw [hm] at h; cases h
      | none =>
        rw [hm] at h
        intro r hr
        rcases List.mem_cons.mp hr with rfl | hmem
        · intro hk
          rw [if_pos hk] at h
          cases h
        · exact (ih.mp hm) r hmem
    · intro h
      have hrest : lastMatch rest k = none :=
        ih.mpr (fun r hr => h r (List.mem_cons_of_mem _ hr))
      rw [hrest, if_neg (h rec (List.mem_cons_self _ _))]

theorem applyRecs_eq_lastMatch (recs : List ExtractedRecord) (r : ServerRow) :
    applyRecs recs r =
      match lastMatch recs r.ipAddress with
      | some rec => syncUpdate rec r
      | none => r := by
  induction recs generalizing r with
  | nil => rfl
  | cons rec rest ih =>
    show applyRecs rest (updOne rec r) = _
    rw [ih (updOne rec r)]
    unfold updOne
    by_cases hk : r.ipAddress = rec.ipAddress
    · rw [if_pos hk]
      rw [syncUpdate_ipAddress]
      cases hm : lastMatch rest r.ipAddress with
      | some x =>
        simp only [lastMatch, hm, syncUpdate_syncUpdate]
      | none =>
        have hks : rec.ipAddress = r.ipAddress := hk.symm
        simp only [lastMatch, hm, if_pos hks]
    · rw [if_neg hk]
      cases hm : lastMatch rest r.ipAddress with
      | some x => simp only [lastMatch, hm]
      | none =>
        have hks : ¬ rec.ipAddress = r.ipAddress := fun h => hk h.symm
        simp only [lastMatch, hm, if_neg hks]

theorem upsertAll_eq_map (recs : List ExtractedRecord) (db : List ServerRow)
    (h : ∀ rec ∈ recs, keyPresent rec.ipAddress db) :
    upsertAll recs db = db.map (applyRecs recs) := by
  induction recs generalizing db with
  | nil =>
    refine Eq.symm ?_
    calc List.map (applyRecs []) db
        = List.map id db := List.map_congr_left (fun r _ => rfl)
      _ = db := List.map_id _
  | cons rec rest ih =>
    have hk : keyPresent rec.ipAddress db := h rec (List.mem_cons_self _ _)
    have hrest : ∀ r0 ∈ rest, keyPresent r0.ipAddress (db.map (updOne rec)) :=
      fun r0 hr0 =>
        (keyPresent_map_updOne _ rec db).mpr (h r0 (List.mem_cons_of_mem _ hr0))
    show upsertAll rest (upsert rec db) = _
    rw [upsert, if_pos hk, ih _ hrest, List.map_map]
    exact List.map_congr_left (fun a _ => rfl)

theorem mem_upsertAll_of_no_match (recs : List ExtractedRecord)
    (db : List ServerRow) (r : ServerRow)
    (hmem : r ∈ upsertAll recs db)
    (hno : ∀ rec ∈ recs, ¬ rec.ipAddress = r.ipAddress) :
    r ∈ db := by
  induction recs generalizing db with
  | nil => exact hmem
  | cons rec rest ih =>
    have h1 : r ∈ upsert rec db :=
      ih _ hmem (fun rec0 h0 => hno rec0 (List.mem_cons_of_mem _ h0))
    have hrec : ¬ rec.ipAddress = r.ipAddress := hno rec (List.mem_cons_self _ _)
    by_cases hp : keyPresent rec.ipAddress db
    · rw [upsert, if_pos hp] at h1
      rcases List.mem_map.mp h1 with ⟨r0, hr0, hup⟩
      by_cases hk : r0.ipAddress = rec.ipAddress
      · exfalso
        apply hrec
        have hrr : r.ipAddress = r0.ipAddress := by rw [← hup, updOne_ipAddress]
        rw [hrr, hk]
      · rw [updOne, if_neg hk] at hup
        rw [← hup]
        exact hr0
    · rw [upsert, if_neg hp] at h1
      rcases List.mem_append.mp h1 with h2 | h2
      · exact h2
      · exfalso
        apply hrec
        rw [List.mem_singleton.mp h2, insertRow_ipAddress]

theorem upsertAll_last_agrees (recs : List ExtractedRecord)
    (db : List ServerRow) (r : ServerRow) (rec0 : ExtractedRecord)
    (hmem : r ∈ upsertAll recs db)
    (hlast : lastMatch recs r.ipAddress = some rec0) :
    syncUpdate rec0 r = r := by
  induction recs generalizing db with
  | nil => cases hlast
  | cons rec rest ih =>
    cases hm : lastMatch rest r.ipAddress with
    | some x =>
      have hx : x = rec0 := by
        rw [lastMatch, hm] at hlast
        exact Option.some.inj hlast
      rw [hx] at hm
      exact ih _ hmem hm
    | none =>
      have hrecmatch : rec.ipAddress = r.ipAddress ∧ rec0 = rec := by
        rw [lastMatch, hm] at hlast
        by_cases hk : rec.ipAddress = r.ipAddress
        · rw [if_pos hk] at hlast
          exact ⟨hk, (Option.some.inj hlast).symm⟩
        · rw [if_neg hk] at hlast
          cases hlast
      obtain ⟨hk, hrec0⟩ := hrecmatch
      rw [hrec0]
      have hnone := (lastMatch_eq_none_iff rest r.ipAddress).mp hm
      have h1 : r ∈ upsert rec db := mem_upsertAll_of_no_match rest _ r hmem hnone
      by_cases hp : keyPresent rec.ipAddress db
      · rw [upsert, if_pos hp] at h1
        rcases List.mem_map.mp h1 with ⟨r0, hr0, hup⟩
        by_cases hk0 : r0.ipAddress = rec.ipAddress
        · rw [updOne, if_pos hk0] at hup
          rw [← hup, syncUpdate_syncUpdate]
        · rw [updOne, if_neg hk0] at hup
          exact absurd (by rw [hup, ← hk]) hk0
      · rw [upsert, if_neg hp] at h1
        rcases List.mem_append.mp h1 with h2 | h2
        · exact absurd ⟨r, h2, hk.symm⟩ hp
        · rw [List.mem_singleton.mp h2]
          exact syncUpdate_insertRow rec rec rfl

theorem upsertAll_idem (recs : List ExtractedRecord) (db : List ServerRow) :
    upsertAll recs (upsertAll recs db) = upsertAll recs db := by
  have hall : ∀ rec ∈ recs, keyPresent rec.ipAddress (upsertAll recs db) :=
    fun rec h => keyPresent_upsertAll_of_mem recs db rec h
  rw [upsertAll_eq_map recs _ hall]
  have hid : ∀ r ∈ upsertAll recs db, applyRecs recs r = r := by
    intro r hr
    rw [applyRecs_eq_lastMatch]
    cases hm : lastMatch recs r.ipAddress with
    | none => rfl
    | some rec0 => exact upsertAll_last_agrees recs db r rec0 hr hm
  calc (upsertAll recs db).map (applyRecs recs)
      = (upsertAll recs db).map id := List.map_congr_left (fun r hr => hid r hr)
    _ = upsertAll recs db := List.map_id _

/-! ### The pagination loop factors through its store-independent replay -/

theorem categoryLoopAux_collect (fetch : String → PageData α)
    (parse : α → RawRow) (IP ext sType : String) (fuel counter : Nat)
    (db : List ServerRow) (qs : List String) :
    categoryLoopAux fetch parse IP ext sType fuel counter db qs =
      (collectLoopAux fetch parse ext sType fuel counter).map
        (fun p => (syncDb IP p.1 db, qs ++ p.2.1, p.2.2)) := by
  induction fuel generalizing counter db qs with
  | zero => rfl
  | succ fuel ih =>
    simp only [categoryLoopAux, collectLoopAux]
    cases hloc : locateTargetTable (fetch (categoryQuery ext counter)) with
    | none => simp [syncDb]
    | some t =>
      by_cases he : (selectRows t.trs).isEmpty = true
      · simp [he]
      · simp only [he, if_false, Bool.false_eq_true]
        rw [ih]
        cases hc : collectLoopAux fetch parse ext sType fuel (counter + 1) with
        | none => rfl
        | some p =>
          obtain ⟨rs, qs2, ok⟩ := p
          simp [syncDb_append, List.append_assoc]

theorem extLoop_collect (fetch : String → PageData α) (parse : α → RawRow)
    (IP : String) (fuel : Nat) (exts : List String) (db : List ServerRow) :
    extLoop fetch parse IP fuel exts db =
      (collectExtLoop fetch parse fuel exts).map
        (fun p => (syncDb IP p.1 db, p.2)) := by
  induction exts generalizing db with
  | nil => rfl
  | cons ext rest ih =>
    simp only [extLoop, collectExtLoop]
    rw [categoryLoopAux_collect]
    cases hc : collectLoopAux fetch parse ext (server_type ext) fuel 0 with
    | none => rfl
    | some p =>
      obtain ⟨recs, qs, ok⟩ := p
      cases ok with
      | false => simp
      | true =>
        simp only [Option.map_some']
        rw [ih]
        cases hr : collectExtLoop fetch parse fuel rest with
        | none => rfl
        | some p2 =>
          obtain ⟨rs, ok2⟩ := p2
          simp [syncDb_append]

/-- C1: running the full sync twice against the same unchanged remote page
data yields, after the second run, exactly the store state of the first
run: every update of the second run rewrites the same `name`, `type`,
`page`, `admin`, `owned` values, no new row appears and no other field
changes. -/
theorem IPDB_sync_idempotent {α : Type} (fetch : String → PageData α)
    (parse : α → RawRow) (fuel : Nat) (db db1 : List ServerRow)
    (h : IPDB_to_localDB fetch parse "none" fuel db = some (db1, true)) :
    IPDB_to_localDB fetch parse "none" fuel db1 = some (db1, true) := by
  unfold IPDB_to_localDB at h ⊢
  rw [extLoop_collect] at h ⊢
  cases hc : collectExtLoop fetch parse fuel ["pub", "priv", "sec"] with
  | none => rw [hc] at h; cases h
  | some p =>
    obtain ⟨recs, ok⟩ := p
    rw [hc] at h
    rw [Option.map_some', Option.some.injEq, Prod.mk.injEq] at h
    obtain ⟨hdb, hok⟩ := h
    subst hok
    rw [Option.map_some', Option.some.injEq, Prod.mk.injEq]
    refine ⟨?_, rfl⟩
    rw [syncDb_none] at hdb ⊢
    rw [← hdb]
    exact upsertAll_idem recs db

/-! ### Concrete scraped pages used by the witnesses -/

/-- An empty scraped table. -/
def tableEmptyNat : HtmlTable Nat := HtmlTable.mk [] []

/-- A standard-layout page (no marker in the text) whose target table
(nested table 3 of top-level table 9) is `target`. -/
def stdPageNat (target : HtmlTable Nat) : PageData Nat :=
  { text := "",
    tables := List.replicate 9 tableEmptyNat ++
      [HtmlTable.mk [] (List.replicate 3 tableEmptyNat ++ [target])] }

/-- A remote with one public record on page 0 (`[0,1,2,3,4]` filtered to
one candidate row) and nothing else. -/
def fetchC1 : String → PageData Nat :=
  fun q => if q = "index.php?action=ip_db&a2=pub&_o=0"
           then stdPageNat (HtmlTable.mk [0, 1, 2, 3, 4] [])
           else stdPageNat tableEmptyNat

def parseC1 : Nat → RawRow :=
  fun _ => { ipAddress := "10.1.2.3", name := "Box", admin := true, owned := false }

def rowC1 : ServerRow :=
  { ipAddress := "10.1.2.3", name := "Box", type := "Public", page := "0",
    admin := "1", minimum_protect := "", owned := "0", running := "",
    files := "", cpu := "", memory := "", bandwidth := "", lastlog := "",
    lastupdated := "N/A" }

/-- Witness for C1: the first run against `fetchC1` turned the empty store
into `[rowC1]`; the theorem applied there gives that the second run
reproduces `[rowC1]` exactly. -/
theorem IPDB_sync_idempotent_witness :
    IPDB_to_localDB fetchC1 parseC1 "none" 2 [rowC1] = some ([rowC1], true) :=
  IPDB_sync_idempotent fetchC1 parseC1 2 [] [rowC1] (by decide)

/-! ### Uniqueness of store keys -/

theorem keyPresent_iff_mem_dbKeys (k : String) (db : List ServerRow) :
    keyPresent k db ↔ k ∈ dbKeys db := by
  unfold keyPresent dbKeys
  exact Iff.symm List.mem_map

theorem dbKeys_map_updOne (rec : ExtractedRecord) (db : List ServerRow) :
    dbKeys (db.map (updOne rec)) = dbKeys db := by
  unfold dbKeys
  rw [List.map_map]
  exact List.map_congr_left (fun r _ => updOne_ipAddress rec r)

theorem nodup_processRecord (IP : String) (rec : ExtractedRecord)
    (db : List ServerRow) (h : (dbKeys db).Nodup) :
    (dbKeys (processRecord IP rec db).1).Nodup := by
  unfold processRecord
  split
  · exact h
  · split
    · next hp =>
      show (dbKeys (db.map (updOne rec))).Nodup
      rw [dbKeys_map_updOne]
      exact h
    · next hp =>
      show (dbKeys (db ++ [insertRow rec])).Nodup
      unfold dbKeys
      rw [List.map_append]
      rw [List.nodup_append]
      refine ⟨h, List.nodup_singleton _, ?_⟩
      intro a ha hb
      apply hp
      have hips : a = rec.ipAddress := by
        simpa [insertRow_ipAddress] using hb
      rw [keyPresent_iff_mem_dbKeys]
      rw [← hips]
      exact ha

theorem nodup_syncDb (IP : String) (recs : List ExtractedRecord)
    (db : List ServerRow) (h : (dbKeys db).Nodup) :
    (dbKeys (syncDb IP recs db)).Nodup := by
  induction recs generalizing db with
  | nil => exact h
  | cons rec rest ih => exact ih _ (nodup_processRecord IP rec db h)

/-- C2: across any sequence of sync invocations the store never holds two
rows with the same identifier — a record whose identifier already exists is
updated in place (keys unchanged), and an insert only happens when the
`SELECT` found no row with that key. -/
theorem store_keys_nodup_runSyncs {α : Type} (calls : List (SyncCall α))
    (db db1 : List ServerRow) (ok : Bool)
    (h : (dbKeys db).Nodup)
    (hrun : runSyncs calls db = some (db1, ok)) :
    (dbKeys db1).Nodup := by
  induction calls generalizing db with
  | nil =>
    rw [runSyncs, Option.some.injEq, Prod.mk.injEq] at hrun
    rw [← hrun.1]
    exact h
  | cons c rest ih =>
    cases hx : IPDB_to_localDB c.fetch c.parse c.IP c.fuel db with
    | none =>
      rw [runSyncs, hx] at hrun
      cases hrun
    | some p =>
      obtain ⟨db2, ok2⟩ := p
      have hdb2 : (dbKeys db2).Nodup := by
        unfold IPDB_to_localDB at hx
        rw [extLoop_collect] at hx
        cases hcc : collectExtLoop c.fetch c.parse c.fuel ["pub", "priv", "sec"] with
        | none => rw [hcc] at hx; cases hx
        | some pc =>
          rw [hcc, Option.map_some', Option.some.injEq, Prod.mk.injEq] at hx
          rw [← hx.1]
          exact nodup_syncDb _ _ _ h
      cases ok2 with
      | false =>
        rw [runSyncs, hx] at hrun
        rw [Option.some.injEq, Prod.mk.injEq] at hrun
        rw [← hrun.1]
        exact hdb2
      | true =>
        rw [runSyncs, hx] at hrun
        exact ih _ hdb2 hrun

def fetchC2 : String → PageData Nat :=
  fun q => if q = "index.php?action=ip_db&a2=pub&_o=0"
           then stdPageNat (HtmlTable.mk [0, 1, 2, 3, 4] [])
           else stdPageNat tableEmptyNat

def parseC2 : Nat → RawRow :=
  fun _ => { ipAddress := "9.9.9.9", name := "Gate", admin := false, owned := true }

def callC2 : SyncCall Nat :=
  { fetch := fetchC2, parse := parseC2, IP := "none", fuel := 2 }

def rowC2 : ServerRow :=
  { ipAddress := "9.9.9.9", name := "Gate", type := "Public", page := "0",
    admin := "0", minimum_protect := "", owned := "1", running := "",
    files := "", cpu := "", memory := "", bandwidth := "", lastlog := "",
    lastupdated := "N/A" }

/-- Witness for C2: one concrete sync starting from the empty store leaves
the single-row store, whose key column has no duplicate. -/
theorem store_keys_nodup_runSyncs_witness : (dbKeys [rowC2]).Nodup :=
  store_keys_nodup_runSyncs [callC2] [] [rowC2] true (by decide) (by decide)

/-! ### Filtered sync -/

theorem processRecord_skip (X : String) (rec : ExtractedRecord)
    (db : List ServerRow) (hX : ¬ X = "none") (hne : ¬ rec.ipAddress = X) :
    processRecord X rec db = (db, []) := by
  unfold processRecord
  rw [if_pos ⟨hne, hX⟩]

theorem processRecord_target (X : String) (rec : ExtractedRecord)
    (db : List ServerRow) (hX : ¬ X = "none") :
    ∀ op ∈ (processRecord X rec db).2, DbOp.target op = X := by
  by_cases hne : rec.ipAddress = X
  · unfold processRecord
    rw [if_neg (fun hc => hc.1 hne)]
    split <;>
    · intro op hop
      simp only [List.mem_cons, List.not_mem_nil, or_false] at hop
      rcases hop with rfl | rfl <;> simpa [DbOp.target] using hne
  · rw [processRecord_skip X rec db hX hne]
    intro op hop
    cases hop

theorem syncOps_target (X : String) (recs : List ExtractedRecord)
    (db : List ServerRow) (hX : ¬ X = "none") :
    ∀ op ∈ syncOps X recs db, DbOp.target op = X := by
  induction recs generalizing db with
  | nil => intro op hop; cases hop
  | cons rec rest ih =>
    intro op hop
    rw [syncOps] at hop
    rcases List.mem_append.mp hop with h1 | h1
    · exact processRecord_target X rec db hX op h1
    · exact ih _ op h1

theorem filter_map_updOne (rec : ExtractedRecord) (db : List ServerRow)
    (X : String) (hrec : rec.ipAddress = X) :
    (db.map (updOne rec)).filter (fun r => !decide (r.ipAddress = X)) =
      db.filter (fun r => !decide (r.ipAddress = X)) := by
  induction db with
  | nil => rfl
  | cons r d ih =>
    rw [List.map_cons]
    by_cases hr : r.ipAddress = X
    · simp [List.filter_cons, updOne_ipAddress, hr, ih]
    · have hne2 : ¬ r.ipAddress = rec.ipAddress := by rw [hrec]; exact hr
      rw [updOne, if_neg hne2]
      simp [List.filter_cons, hr, ih]

theorem filter_processRecord (X : String) (rec : ExtractedRecord)
    (db : List ServerRow) (hX : ¬ X = "none") :
    ((processRecord X rec db).1).filter (fun r => !decide (r.ipAddress = X)) =
      db.filter (fun r => !decide (r.ipAddress = X)) := by
  by_cases hne : rec.ipAddress = X
  · unfold processRecord
    rw [if_neg (fun hc => hc.1 hne)]
    split
    · exact filter_map_updOne rec db X hne
    · show (db ++ [insertRow rec]).filter _ = _
      rw [List.filter_append]
      have hip : (insertRow rec).ipAddress = X := by
        rw [insertRow_ipAddress]; exact hne
      simp [List.filter_cons, hip]
  · rw [processRecord_skip X rec db hX hne]

theorem filter_syncDb (X : String) (recs : List ExtractedRecord)
    (db : List ServerRow) (hX : ¬ X = "none") :
    (syncDb X recs db).filter (fun r => !decide (r.ipAddress = X)) =
      db.filter (fun r => !decide (r.ipAddress = X)) := by
  induction recs generalizing db with
  | nil => rfl
  | cons rec rest ih =>
    rw [syncDb, ih _]
    exact filter_processRecord X rec db hX

/-- C4: under a set identifier filter X (any value other than the sentinel
"none"), a full sync leaves every store row whose identifier differs from X
unmodified across all pages and categories, and every SQL statement the
record loop ever submits targets X — a record whose identifier differs from
X is skipped with no store access. -/
theorem filtered_sync_frame {α : Type} (fetch : String → PageData α)
    (parse : α → RawRow) (X : String) (fuel : Nat)
    (db db1 : List ServerRow) (ok : Bool) (hX : ¬ X = "none")
    (hrun : IPDB_to_localDB fetch parse X fuel db = some (db1, ok)) :
    db1.filter (fun r => !decide (r.ipAddress = X)) =
      db.filter (fun r => !decide (r.ipAddress = X)) ∧
    ∀ (recs : List ExtractedRecord) (d : List ServerRow),
      ∀ op ∈ syncOps X recs d, DbOp.target op = X := by
  constructor
  · unfold IPDB_to_localDB at hrun
    rw [extLoop_collect] at hrun
    cases hcc : collectExtLoop fetch parse fuel ["pub", "priv", "sec"] with
    | none => rw [hcc] at hrun; cases hrun
    | some pc =>
      rw [hcc, Option.map_some', Option.some.injEq, Prod.mk.injEq] at hrun
      rw [← hrun.1]
      exact filter_syncDb X pc.1 db hX
  · intro recs d
    exact syncOps_target X recs d hX

/-- A remote whose public page 0 carries two records, with identifiers
"1.1.1.1" (row 2) and "2.2.2.2" (row 4). -/
def fetchC4 : String → PageData Nat :=
  fun q => if q = "index.php?action=ip_db&a2=pub&_o=0"
           then stdPageNat (HtmlTable.mk [0, 1, 2, 3, 4, 5, 6] [])
           else stdPageNat tableEmptyNat

def parseC4 : Nat → RawRow :=
  fun n => if n = 2
           then { ipAddress := "1.1.1.1", name := "Seen", admin := false, owned := false }
           else { ipAddress := "2.2.2.2", name := "New", admin := true, owned := false }

/-- A pre-existing row for "1.1.1.1" with caller-owned field values. -/
def rowC4A : ServerRow :=
  { ipAddress := "1.1.1.1", name := "Old", type := "Private", page := "7",
    admin := "1", minimum_protect := "90", owned := "0", running := "yes",
    files := "2", cpu := "3", memory := "4", bandwidth := "5",
    lastlog := "L", lastupdated := "U" }

/-- The row inserted for the filtered identifier "2.2.2.2". -/
def rowC4X : ServerRow :=
  { ipAddress := "2.2.2.2", name := "New", type := "Public", page := "0",
    admin := "1", minimum_protect := "", owned := "0", running := "",
    files := "", cpu := "", memory := "", bandwidth := "", lastlog := "",
    lastupdated := "N/A" }

/-- Witness for C4: syncing with filter "2.2.2.2" over a page that also
lists "1.1.1.1" leaves the pre-existing "1.1.1.1" row untouched. -/
theorem filtered_sync_frame_witness :
    [rowC4A, rowC4X].filter (fun r => !decide (r.ipAddress = "2.2.2.2")) =
      [rowC4A].filter (fun r => !decide (r.ipAddress = "2.2.2.2")) :=
  (filtered_sync_frame fetchC4 parseC4 "2.2.2.2" 2 [rowC4A] [rowC4A, rowC4X]
    true (by decide) (by decide)).1

/-! ### The "none" sentinel -/

theorem syncOps_none_length (recs : List ExtractedRecord)
    (db : List ServerRow) :
    (syncOps "none" recs db).length = 2 * recs.length := by
  induction recs generalizing db with
  | nil => rfl
  | cons rec rest ih =>
    rw [syncOps, List.length_append, ih]
    have h2 : (processRecord "none" rec db).2.length = 2 := by
      unfold processRecord
      simp only [not_true, and_false, if_false]
      split <;> rfl
    rw [h2, List.length_cons]
    ring

/-- C10: calling the sync with the filter equal to the literal string
"none" behaves as an unfiltered sync — every extracted record reaches the
store path (two SQL statements per record) — and consequently a record
whose identifier is the string "none" is skipped under every other filter
value, so it can never be individually targeted. -/
theorem none_sentinel_unfiltered (recs : List ExtractedRecord)
    (db : List ServerRow) :
    syncDb "none" recs db = upsertAll recs db ∧
    (syncOps "none" recs db).length = 2 * recs.length ∧
    ∀ (X : String) (rec : ExtractedRecord), ¬ X = "none" →
      rec.ipAddress = "none" → processRecord X rec db = (db, []) := by
  refine ⟨syncDb_none recs db, syncOps_none_length recs db, ?_⟩
  intro X rec hX hip
  unfold processRecord
  rw [if_pos ⟨fun h => hX (by rw [← h]; exact hip), hX⟩]

def recC10 : ExtractedRecord :=
  { ipAddress := "none", name := "N", type := "Public", page := "0",
    admin := false, owned := false }

/-- Witness for C10: with filter "none" the single record is upserted; with
the filter "10.0.0.1" the record whose identifier is the string "none" is
skipped with no store access. -/
theorem none_sentinel_unfiltered_witness :
    syncDb "none" [recC10] [] = upsertAll [recC10] [] ∧
    processRecord "10.0.0.1" recC10 [] = ([], []) :=
  ⟨(none_sentinel_unfiltered [recC10] []).1,
   (none_sentinel_unfiltered [recC10] []).2.2 "10.0.0.1" recC10 (by decide) rfl⟩

/-! ### Pagination -/

theorem categoryLoopAux_pages {α : Type} (fetch : String → PageData α)
    (parse : α → RawRow) (IP ext sType : String) (N : Nat) :
    ∀ (c fuel : Nat) (db : List ServerRow) (qs : List String),
      N + 1 ≤ fuel →
      (∀ k, k < N → ∃ t,
        locateTargetTable (fetch (categoryQuery ext (c + k))) = some t ∧
        ¬ selectRows t.trs = []) →
      (∃ t, locateTargetTable (fetch (categoryQuery ext (c + N))) = some t ∧
        selectRows t.trs = []) →
      ∃ db2, categoryLoopAux fetch parse IP ext sType fuel c db qs =
        some (db2, qs ++ (List.range (N + 1)).map (fun k => categoryQuery ext (c + k)),
          true) := by
  induction N with
  | zero =>
    intro c fuel db qs hfuel hpages hlast
    obtain ⟨t, hloc, hempty⟩ := hlast
    simp only [Nat.add_zero] at hloc hempty
    cases fuel with
    | zero => omega
    | succ fuel =>
      refine ⟨db, ?_⟩
      simp [categoryLoopAux, hloc, hempty, syncDb]
      rfl
  | succ N ihN =>
    intro c fuel db qs hfuel hpages hlast
    cases fuel with
    | zero => omega
    | succ fuel =>
      obtain ⟨t, hloc, hne⟩ := hpages 0 (Nat.succ_pos N)
      simp only [Nat.add_zero] at hloc hne
      have hfuel2 : N + 1 ≤ fuel := by omega
      have hpages2 : ∀ k, k < N → ∃ t2,
          locateTargetTable (fetch (categoryQuery ext (c + 1 + k))) = some t2 ∧
          ¬ selectRows t2.trs = [] := by
        intro k hk
        have h := hpages (k + 1) (by omega)
        rwa [show c + (k + 1) = c + 1 + k by omega] at h
      have hlast2 : ∃ t2,
          locateTargetTable (fetch (categoryQuery ext (c + 1 + N))) = some t2 ∧
          selectRows t2.trs = [] := by
        have h := hlast
        rwa [show c + (N + 1) = c + 1 + N by omega] at h
      obtain ⟨db2, hdb2⟩ := ihN (c + 1) fuel
        (syncDb IP ((selectRows t.trs).map (fun tr => mkRecord (parse tr) sType c)) db)
        (qs ++ [categoryQuery ext c]) hfuel2 hpages2 hlast2
      refine ⟨db2, ?_⟩
      have hie : (selectRows t.trs).isEmpty = false := by
        cases hsel : selectRows t.trs with
        | nil => exact absurd hsel hne
        | cons a l => rfl
      have hmapshift : ∀ (f : Nat → String) (n : Nat),
          (List.range (n + 1)).map f = f 0 :: (List.range n).map (fun k => f (k + 1)) := by
        intro f n
        rw [List.range_succ_eq_map, List.map_cons, List.map_map]
        rfl
      have hq : (qs ++ [categoryQuery ext c]) ++
            (List.range (N + 1)).map (fun k => categoryQuery ext (c + 1 + k)) =
          qs ++ (List.range (N + 1 + 1)).map (fun k => categoryQuery ext (c + k)) := by
        rw [List.append_assoc]
        congr 1
        rw [List.singleton_append, hmapshift (fun k => categoryQuery ext (c + k)) (N + 1)]
        have hc0 : categoryQuery ext (c + 0) = categoryQuery ext c := by
          rw [Nat.add_zero]
        rw [hc0]
        congr 1
        apply List.map_congr_left
        intro k hk
        show categoryQuery ext (c + 1 + k) = categoryQuery ext (c + (k + 1))
        congr 1
        omega
      simp only [categoryLoopAux, hloc, hie, Bool.false_eq_true, if_false]
      rw [hdb2, hq]

/-- C5: when a category's remote listing has N consecutive pages each
yielding at least one candidate row followed by a page yielding zero rows,
the pagination loop for that category performs exactly N+1 page fetches,
at the queries carrying offsets 0*20, 1*20, ..., N*20, and then terminates
for that category. -/
theorem pagination_fetch_count {α : Type} (fetch : String → PageData α)
    (parse : α → RawRow) (IP ext sType : String) (N fuel : Nat)
    (db : List ServerRow) (hfuel : N + 1 ≤ fuel)
    (hpages : ∀ k, k < N → ∃ t,
      locateTargetTable (fetch (categoryQuery ext k)) = some t ∧
      ¬ selectRows t.trs = [])
    (hlast : ∃ t, locateTargetTable (fetch (categoryQuery ext N)) = some t ∧
      selectRows t.trs = []) :
    ∃ db2, categoryLoopAux fetch parse IP ext sType fuel 0 db [] =
      some (db2, (List.range (N + 1)).map (fun k => categoryQuery ext k), true) := by
  have h0 : ∀ k, k < N → ∃ t,
      locateTargetTable (fetch (categoryQuery ext (0 + k))) = some t ∧
      ¬ selectRows t.trs = [] := by
    intro k hk
    simpa [Nat.zero_add] using hpages k hk
  have h1 : ∃ t, locateTargetTable (fetch (categoryQuery ext (0 + N))) = some t ∧
      selectRows t.trs = [] := by
    simpa [Nat.zero_add] using hlast
  obtain ⟨db2, hdb2⟩ :=
    categoryLoopAux_pages fetch parse IP ext sType N 0 fuel db [] hfuel h0 h1
  refine ⟨db2, ?_⟩
  rw [hdb2]
  simp

/-- A private listing with one page of rows followed by an empty page. -/
def fetchC5 : String → PageData Nat :=
  fun q => if q = "index.php?action=ip_db&a2=priv&_o=0"
           then stdPageNat (HtmlTable.mk [0, 1, 2, 3, 4] [])
           else stdPageNat tableEmptyNat

def parseC5 : Nat → RawRow :=
  fun _ => { ipAddress := "8.8.8.8", name := "P", admin := false, owned := false }

/-- Witness for C5 with N = 1: exactly the two queries at offsets 0 and 20
are fetched, then the category stops. -/
theorem pagination_fetch_count_witness :
    ∃ db2, categoryLoopAux fetchC5 parseC5 "none" "priv" "Private" 2 0 [] [] =
      some (db2, ["index.php?action=ip_db&a2=priv&_o=0",
        "index.php?action=ip_db&a2=priv&_o=20"], true) := by
  obtain ⟨db2, h2⟩ := pagination_fetch_count fetchC5 parseC5 "none" "priv" "Private"
    1 2 [] (by omega)
    (by
      intro k hk
      have hk0 : k = 0 := by omega
      subst hk0
      exact ⟨HtmlTable.mk [0, 1, 2, 3, 4] [], rfl, by decide⟩)
    ⟨tableEmptyNat, rfl, rfl⟩
  exact ⟨db2, by rw [h2]; rfl⟩

/-! ### The update-in-place frame -/

theorem updOne_minimum_protect (rec : ExtractedRecord) (r : ServerRow) :
    (updOne rec r).minimum_protect = r.minimum_protect := by
  unfold updOne; split <;> rfl

theorem updOne_running (rec : ExtractedRecord) (r : ServerRow) :
    (updOne rec r).running = r.running := by
  unfold updOne; split <;> rfl

theorem updOne_files (rec : ExtractedRecord) (r : ServerRow) :
    (updOne rec r).files = r.files := by
  unfold updOne; split <;> rfl

theorem updOne_cpu (rec : ExtractedRecord) (r : ServerRow) :
    (updOne rec r).cpu = r.cpu := by
  unfold updOne; split <;> rfl

theorem updOne_memory (rec : ExtractedRecord) (r : ServerRow) :
    (updOne rec r).memory = r.memory := by
  unfold updOne; split <;> rfl

theorem updOne_bandwidth (rec : ExtractedRecord) (r : ServerRow) :
    (updOne rec r).bandwidth = r.bandwidth := by
  unfold updOne; split <;> rfl

theorem updOne_lastlog (rec : ExtractedRecord) (r : ServerRow) :
    (updOne rec r).lastlog = r.lastlog := by
  unfold updOne; split <;> rfl

theorem updOne_lastupdated (rec : ExtractedRecord) (r : ServerRow) :
    (updOne rec r).lastupdated = r.lastupdated := by
  unfold updOne; split <;> rfl

/-- C8: when a record's identifier is already present in the store, the
sync performs an update in place: the store keeps its length (no second
row is inserted), position i still holds a row derived from the old
position-i row by `updOne`, which preserves the identifier and every
caller-owned field (`minimum_protect`, `running`, `files`, `cpu`,
`memory`, `bandwidth`, `lastlog`, `lastupdated`), rewrites exactly `name`,
`type`, `page`, `admin`, `owned` on the matching row, and leaves rows with
a different identifier entirely unchanged. -/
theorem sync_update_frame (rec : ExtractedRecord) (db : List ServerRow)
    (h : keyPresent rec.ipAddress db) :
    (upsert rec db).length = db.length ∧
    ∀ (i : Nat) (r0 : ServerRow), db[i]? = some r0 →
      (upsert rec db)[i]? = some (updOne rec r0) ∧
      (updOne rec r0).ipAddress = r0.ipAddress ∧
      (updOne rec r0).minimum_protect = r0.minimum_protect ∧
      (updOne rec r0).running = r0.running ∧
      (updOne rec r0).files = r0.files ∧
      (updOne rec r0).cpu = r0.cpu ∧
      (updOne rec r0).memory = r0.memory ∧
      (updOne rec r0).bandwidth = r0.bandwidth ∧
      (updOne rec r0).lastlog = r0.lastlog ∧
      (updOne rec r0).lastupdated = r0.lastupdated ∧
      (r0.ipAddress = rec.ipAddress → updOne rec r0 = syncUpdate rec r0) ∧
      (¬ r0.ipAddress = rec.ipAddress → updOne rec r0 = r0) := by
  have hup : upsert rec db = db.map (updOne rec) := by rw [upsert, if_pos h]
  constructor
  · rw [hup, List.length_map]
  · intro i r0 h0
    refine ⟨?_, updOne_ipAddress rec r0, updOne_minimum_protect rec r0,
      updOne_running rec r0, updOne_files rec r0, updOne_cpu rec r0,
      updOne_memory rec r0, updOne_bandwidth rec r0, updOne_lastlog rec r0,
      updOne_lastupdated rec r0, ?_, ?_⟩
    · rw [hup, List.getElem?_map, h0]
      rfl
    · intro hk
      rw [updOne, if_pos hk]
    · intro hk
      rw [updOne, if_neg hk]

def recC8 : ExtractedRecord :=
  { ipAddress := "5.5.5.5", name := "Fresh", type := "Public", page := "3",
    admin := true, owned := true }

def rowC8 : ServerRow :=
  { ipAddress := "5.5.5.5", name := "Stale", type := "Secret", page := "9",
    admin := "0", minimum_protect := "42", owned := "1", running := "r",
    files := "f", cpu := "c", memory := "m", bandwidth := "b",
    lastlog := "log", lastupdated := "upd" }

/-- Witness for C8: updating the one-row store holding `rowC8` keeps the
length and maps position 0 through `updOne`. -/
theorem sync_update_frame_witness :
    (upsert recC8 [rowC8]).length = [rowC8].length ∧
    (upsert recC8 [rowC8])[0]? = some (updOne recC8 rowC8) :=
  ⟨(sync_update_frame recC8 [rowC8] ⟨rowC8, by decide, rfl⟩).1,
   ((sync_update_frame recC8 [rowC8] ⟨rowC8, by decide, rfl⟩).2 0 rowC8 rfl).1⟩

/-! ### Whitelist enforcement (C3) -/

/-- Counterexample to C3 as stated: a `setFields` call whose attribute list
contains the non-whitelisted name "bogus" but whose value list has a
different length fails with the arity error, not with the invalid-column
error (the arity check runs first). -/
theorem whitelist_reject_counterexample :
    (set_IP_attributes [] "1.1.1.1" ["bogus"] []).1 =
      SetResult.err DbError.arityMismatch ∧
    ¬ (set_IP_attributes [] "1.1.1.1" ["bogus"] []).1 =
      SetResult.err DbError.invalidColumn := by
  refine ⟨by decide, by decide⟩

/-- C3 (amended): a `getFields` call with any non-whitelisted name fails
with the invalid-column error, with no store mutation and before any query
executes; a `setFields` call with any non-whitelisted name does the same
provided the attribute and value counts match, while a count mismatch is
rejected first as the arity error — likewise before any query executes and
with zero store mutation. -/
theorem whitelist_reject_no_mutation (db : List ServerRow) (IP : String)
    (attributes values : List String)
    (hbad : ∃ a ∈ attributes, a ∉ VALID_COLUMN_NAMES) :
    get_IP_attributes db IP attributes =
      (GetResult.err DbError.invalidColumn, false) ∧
    (attributes.length = values.length →
      set_IP_attributes db IP attributes values =
        (SetResult.err DbError.invalidColumn, db, false)) ∧
    (¬ attributes.length = values.length →
      set_IP_attributes db IP attributes values =
        (SetResult.err DbError.arityMismatch, db, false)) := by
  refine ⟨?_, ?_, ?_⟩
  · rw [get_IP_attributes, if_pos hbad]
  · intro hlen
    rw [set_IP_attributes, if_neg (fun hc => hc hlen), if_pos hbad]
  · intro hlen
    rw [set_IP_attributes, if_pos hlen]

/-- Witness for C3 (amended), at the spec's own example input. -/
theorem whitelist_reject_no_mutation_witness :
    get_IP_attributes [] "1.2.3.4" ["name", "DROP TABLE"] =
      (GetResult.err DbError.invalidColumn, false) ∧
    set_IP_attributes [] "1.2.3.4" ["name", "DROP TABLE"] ["a", "b"] =
      (SetResult.err DbError.invalidColumn, [], false) :=
  ⟨(whitelist_reject_no_mutation [] "1.2.3.4" ["name", "DROP TABLE"] ["a", "b"]
      (by decide)).1,
   (whitelist_reject_no_mutation [] "1.2.3.4" ["name", "DROP TABLE"] ["a", "b"]
      (by decide)).2.1 rfl⟩

/-! ### Writes to an absent identifier (C9) -/

/-- Counterexample to C9 as stated: with the empty (hence vacuously
whitelisted) attribute list of matching length and an identifier absent
from the store, `set_IP_attributes` does not return the success result —
the built statement `UPDATE servers SET  WHERE ipAddress = ?` is malformed
SQL and the call raises instead. -/
theorem setFields_empty_counterexample :
    set_IP_attributes [] "1.2.3.4" [] [] = (SetResult.raised, [], true) ∧
    ¬ (set_IP_attributes [] "1.2.3.4" [] []).1 = SetResult.ok := by
  refine ⟨by decide, by decide⟩

/-- C9 (amended): a `setFields` call with a nonempty list of whitelisted
names, matching arity, and an identifier absent from the store returns the
success result and leaves the store completely unchanged — a write never
fails with a not-found error, so a caller cannot distinguish an update that
matched a row from one that matched none.  (With an empty attribute list
the built SQL is malformed and the call raises instead.) -/
theorem setFields_missing_row_ok (db : List ServerRow) (IP : String)
    (attributes values : List String)
    (hne : ¬ attributes = [])
    (hwl : ¬ ∃ a ∈ attributes, a ∉ VALID_COLUMN_NAMES)
    (hlen : attributes.length = values.length)
    (habs : ∀ r ∈ db, ¬ r.ipAddress = IP) :
    set_IP_attributes db IP attributes values = (SetResult.ok, db, true) := by
  rw [set_IP_attributes, if_neg (fun hc => hc hlen), if_neg hwl, if_neg hne]
  have hmap : db.map (fun r =>
      if r.ipAddress = IP then
        (attributes.zip values).foldl
          (fun acc av => setColumn acc av.1 (stripQuotes av.2)) r
      else r) = db := by
    calc db.map _ = db.map id :=
          List.map_congr_left (fun r hr => by rw [if_neg (habs r hr)]; rfl)
      _ = db := List.map_id _
  rw [hmap]

def rowC9 : ServerRow :=
  { ipAddress := "10.0.0.7", name := "Other", type := "Public", page := "0",
    admin := "0", minimum_protect := "", owned := "0", running := "",
    files := "", cpu := "", memory := "", bandwidth := "", lastlog := "",
    lastupdated := "N/A" }

/-- Witness for C9 (amended): writing two whitelisted fields of an absent
identifier succeeds and changes nothing. -/
theorem setFields_missing_row_ok_witness :
    set_IP_attributes [rowC9] "10.9.9.9" ["running", "cpu"] ["yes", "5"] =
      (SetResult.ok, [rowC9], true) :=
  setFields_missing_row_ok [rowC9] "10.9.9.9" ["running", "cpu"] ["yes", "5"]
    (by decide) (by decide) rfl (by decide)

/-! ### Row selection (C7) -/

theorem idxFilter_even_step (l : List α) :
    ∀ i, i % 2 = 0 → idxFilter 0 i l = everySecond l := by
  induction l using everySecond.induct with
  | case1 => intro i hi; rfl
  | case2 a =>
    intro i hi
    show (if i % 2 = 0 then a :: idxFilter 0 (i + 1) ([] : List α)
          else idxFilter 0 (i + 1) ([] : List α)) = [a]
    rw [if_pos hi]
    rfl
  | case3 a b rest ih =>
    intro i hi
    show (if i % 2 = 0 then a :: idxFilter 0 (i + 1) (b :: rest)
          else idxFilter 0 (i + 1) (b :: rest)) = everySecond (a :: b :: rest)
    rw [if_pos hi]
    show a :: (if (i + 1) % 2 = 0 then b :: idxFilter 0 (i + 1 + 1) rest
          else idxFilter 0 (i + 1 + 1) rest) = _
    rw [if_neg (by omega : ¬ (i + 1) % 2 = 0), everySecond]
    rw [ih (i + 1 + 1) (by omega)]

theorem everySecond_eq_evenIndexed (l : List α) :
    everySecond l = evenIndexed l :=
  (idxFilter_even_step l 0 rfl).symm

/-- Counterexample to C7 as stated: for a table with rows at positions
0..4 the code keeps row 2 — Python `[::2]` keeps the even zero-based
positions 0, 2, 4, after which the first and last are dropped — while
taking the odd-indexed rows and then dropping the first and last of them
would leave nothing. -/
theorem selectRows_odd_counterexample :
    selectRows [0, 1, 2, 3, 4] = [2] ∧
    ((oddIndexed [0, 1, 2, 3, 4]).drop 1).dropLast = ([] : List Nat) ∧
    ¬ selectRows [0, 1, 2, 3, 4] =
      ((oddIndexed [0, 1, 2, 3, 4]).drop 1).dropLast := by
  refine ⟨by decide, by decide, by decide⟩

/-- C7 (amended): the candidate rows extracted from the located table are
exactly the rows at even zero-based positions (0, 2, 4, ... — the 1st,
3rd, 5th, ... rows), with the first and the last row of that filtered
sequence then excluded as header and footer. -/
theorem selectRows_even_indexed {α : Type} (trs : List α) :
    selectRows trs = ((evenIndexed trs).drop 1).dropLast := by
  unfold selectRows
  rw [everySecond_eq_evenIndexed]

/-! ### Layout selection (C6) -/

/-- Seventeen top-level tables: table 9 carries four nested tables, the
fourth with row list `[103]`; table 16 has row list `[16]`.  The page text
contains the exact lowercase string "remote host web service" but not the
capitalised marker. -/
def pageC6 : PageData Nat :=
  { text := "the remote host web service is active",
    tables := (List.range 17).map (fun n =>
      if n = 9 then
        HtmlTable.mk [9] ((List.range 4).map (fun m => HtmlTable.mk [100 + m] []))
      else HtmlTable.mk [n] []) }

/-- Counterexample to C6 as stated: the literal the code tests is
"Remote host web service" (capital R), compared case-sensitively; a page
whose text contains the exact string "remote host web service" is
nevertheless extracted through the standard-layout path (nested table 3 of
table 9, rows `[103]`) and not through table 16 (rows `[16]`). -/
theorem layout_marker_case_counterexample :
    containsSubstring pageC6.text "remote host web service" = true ∧
    (locateTargetTable pageC6).map (fun t => t.trs) = some [103] ∧
    (pageC6.tables.get? 16).map (fun t => t.trs) = some [16] := by
  refine ⟨by decide, by decide, by decide⟩

/-- C6 (amended): the per-page layout decision is made by the
case-sensitive literal "Remote host web service": when that exact string
occurs anywhere in the page text, the extended-layout path (top-level
table index 16) is used, otherwise the standard-layout path (nested table
index 3 of top-level table index 9). -/
theorem layout_marker_decides {α : Type} (page : PageData α) :
    (containsSubstring page.text "Remote host web service" = true →
      locateTargetTable page = page.tables.get? 16) ∧
    (containsSubstring page.text "Remote host web service" = false →
      locateTargetTable page =
        (page.tables.get? 9).bind (fun t => t.nestedTables.get? 3)) := by
  constructor
  · intro hm
    rw [locateTargetTable, if_pos hm]
  · intro hm
    rw [locateTargetTable, if_neg (by rw [hm]; exact Bool.false_ne_true)]

def pageC6W : PageData Nat :=
  { text := "Remote host web service detected",
    tables := (List.range 17).map (fun n => HtmlTable.mk [n] []) }

/-- Witness for C6 (amended): a page whose text holds the capitalised
marker selects top-level table 16. -/
theorem layout_marker_decides_witness :
    locateTargetTable pageC6W = pageC6W.tables.get? 16 :=
  (layout_marker_decides pageC6W).1 (by decide)
